import Mathlib

/-!
ZeebeCluster reconciler: a shallow embedding.

The development embeds `controllers/zeebecluster_controller.go` and the record
type of `api/v1/zeebecluster_types.go`.  Stateful code is written in explicit
state-passing style over a `World` (the Record Store and the chronological log
of every external call made so far).  The answers of the external
collaborators (remote cluster client, Record Store write acceptance) are
oracles of an `Env`; every oracle sees the log so far, so an answer may change
from one call to the next.
-/

namespace ZeebeOperator

/-- Go error values; `none` in an `Option Err` is the nil error. -/
abbrev Err := String

/-- Modelled from the spec: `cc.ClusterStatus` is declared in the remote client
library, outside src/.  The spec gives it a readiness indicator and
plan/region/channel/generation attributes; the source reads only `Ready` and
compares whole values structurally. -/
structure ClusterStatus where
  Ready : String
  PlanName : String
  Region : String
  ChannelName : String
  GenerationName : String
deriving DecidableEq, Repr

/-- Modelled from the spec: leaf of `cc.Cluster` (client library, outside src/),
read by the source as `name.ClusterPlantType.K8sContext.Name`. -/
structure K8sContext where
  Name : String
deriving DecidableEq, Repr

/-- Modelled from the spec: `name.ClusterPlantType` of `cc.Cluster`. -/
structure ClusterPlanType where
  Name : String
  K8sContext : K8sContext
deriving DecidableEq, Repr

/-- Modelled from the spec: `name.Generation` of `cc.Cluster`. -/
structure Generation where
  Name : String
deriving DecidableEq, Repr

/-- Modelled from the spec: `name.Channel` of `cc.Cluster`. -/
structure Channel where
  Name : String
deriving DecidableEq, Repr

/-- Modelled from the spec: the remote definition returned by get-by-name
(`cc.Cluster`, client library, outside src/), with the four paths the source
reads. -/
structure Cluster where
  ClusterPlantType : ClusterPlanType
  Generation : Generation
  Channel : Channel
deriving DecidableEq, Repr

/-- ZeebeClusterSpec of api/v1/zeebecluster_types.go. -/
structure ZeebeClusterSpec where
  Owner : String
  Track : Bool
  ClusterId : String
  Region : String
  ChannelName : String
  GenerationName : String
  PlanName : String
deriving DecidableEq, Repr

/-- ZeebeClusterStatus of api/v1/zeebecluster_types.go. -/
structure ZeebeClusterStatus where
  ClusterStatus : ClusterStatus
deriving DecidableEq, Repr

/-- ZeebeCluster of api/v1/zeebecluster_types.go.  Of the embedded ObjectMeta
only the fields the controller reads are kept: Name, Namespace, Finalizers and
DeletionTimestamp (a nil pointer is `none`, otherwise an instant counted from
the zero time). -/
structure ZeebeCluster where
  Name : String
  Namespace : String
  Finalizers : List String
  DeletionTimestamp : Option Nat
  Spec : ZeebeClusterSpec
  Status : ZeebeClusterStatus
deriving DecidableEq, Repr

/-- The key of a request, `req.NamespacedName`. -/
structure NamespacedName where
  Namespace : String
  Name : String
deriving DecidableEq, Repr

/-- The Go zero value of `zeebev1.ZeebeCluster` (`var zeebeCluster`, line 87). -/
def zeroZeebeCluster : ZeebeCluster :=
  { Name := "", Namespace := "", Finalizers := [], DeletionTimestamp := none,
    Spec := { Owner := "", Track := false, ClusterId := "", Region := "",
              ChannelName := "", GenerationName := "", PlanName := "" },
    Status := { ClusterStatus := { Ready := "", PlanName := "", Region := "",
                                   ChannelName := "", GenerationName := "" } } }

/-- `DeletionTimestamp.IsZero()`: true for a nil pointer and for the zero instant. -/
def IsZero : Option Nat → Bool
  | none => true
  | some t => t == 0

/-- Every call the controller makes on an external collaborator, in the order made. -/
inductive Event where
  | CreateClusterWithParams (name planName channelName generationName region : String)
  | GetClusterByName (name : String)
  | DeleteCluster (clusterId : String)
  | GetClusterDetails (clusterId : String)
  | Update (obj : ZeebeCluster)
  | StatusUpdate (obj : ZeebeCluster)
  | Go (clusterId : String) (obj : ZeebeCluster)
deriving DecidableEq, Repr

/-- The answers of the external collaborators.  Each oracle receives the log of
calls made so far.  Go functions returning `(value, error)` return a pair. -/
structure Env where
  CreateClusterWithParams : List Event → String → String → String → String → String → String × Option Err
  GetClusterByName : List Event → String → Cluster × Option Err
  DeleteCluster : List Event → String → Bool × Option Err
  GetClusterDetails : List Event → String → ClusterStatus × Option Err
  Update : List Event → ZeebeCluster → Option Err
  StatusUpdate : List Event → ZeebeCluster → Option Err

/-- The Record Store contents and the log of external calls. -/
structure World where
  store : List ZeebeCluster
  trace : List Event

/-- Two records name the same key. -/
def sameKey (a b : ZeebeCluster) : Bool :=
  a.Namespace == b.Namespace && a.Name == b.Name

/-- Modelled from the spec: the Record Store is an external collaborator
(`get(key) -> (record, found)`); the record under a key is the one whose
namespace and name are the key's. -/
def Get (store : List ZeebeCluster) (key : NamespacedName) : Option ZeebeCluster :=
  store.find? (fun r => r.Namespace == key.Namespace && r.Name == key.Name)

/-- Modelled from the spec: an accepted `updateSpec(record)` replaces the stored
record of the same key by the object written; the status is a subresource
(`+kubebuilder:subresource:status` in zeebecluster_types.go), so the stored
status stays as it is. -/
def put (store : List ZeebeCluster) (obj : ZeebeCluster) : List ZeebeCluster :=
  store.map (fun r => if sameKey r obj then { obj with Status := r.Status } else r)

/-- Modelled from the spec: an accepted `updateStatus(record)` is a status-only
update, it never touches spec or finalizers. -/
def putStatus (store : List ZeebeCluster) (obj : ZeebeCluster) : List ZeebeCluster :=
  store.map (fun r => if sameKey r obj then { r with Status := obj.Status } else r)

/-- `r.Update(ctx, &obj)`: the write is logged; the store changes only when the
write is accepted. -/
def Update (env : Env) (obj : ZeebeCluster) (w : World) : Option Err × World :=
  match env.Update w.trace obj with
  | some err => (some err, { w with trace := w.trace ++ [Event.Update obj] })
  | none => (none, { store := put w.store obj, trace := w.trace ++ [Event.Update obj] })

/-- `r.Status().Update(ctx, &obj)`. -/
def StatusUpdate (env : Env) (obj : ZeebeCluster) (w : World) : Option Err × World :=
  match env.StatusUpdate w.trace obj with
  | some err => (some err, { w with trace := w.trace ++ [Event.StatusUpdate obj] })
  | none => (none, { store := putStatus w.store obj, trace := w.trace ++ [Event.StatusUpdate obj] })

/-- The name of the cleanup finalizer (line 98). -/
def myFinalizerName : String := "zeebecluster.cloud.camunda.com"

/-- containsString (lines 246-253). -/
def containsString : List String → String → Bool
  | [], _ => false
  | item :: slice, s => if item = s then true else containsString slice s

/-- removeString (lines 255-263): the loop appends every item other than `s`
to `result`, which starts nil. -/
def removeString (slice : List String) (s : String) : List String :=
  slice.foldl (fun result item => if item = s then result else result ++ [item]) []

/-- deleteExternalDependency (lines 225-241): the remote delete is called unless
the status readiness is "Not Found"; its error is only logged and the function
returns nil on every path. -/
def deleteExternalDependency (env : Env) (zeebeCluster : ZeebeCluster) (w : World) :
    Option Err × World :=
  if zeebeCluster.Status.ClusterStatus.Ready ≠ "Not Found" then
    let (_deleted, _err) := env.DeleteCluster w.trace zeebeCluster.Spec.ClusterId
    (none, { w with trace := w.trace ++ [Event.DeleteCluster zeebeCluster.Spec.ClusterId] })
  else
    (none, w)

/-- Reconcile, lines 153-171: the four field comparisons of the drift sync; the
result is the corrected record and the `modified` flag. -/
def driftSync (zeebeCluster : ZeebeCluster) (name : Cluster) : ZeebeCluster × Bool :=
  let modified := false
  let (zeebeCluster, modified) :=
    if zeebeCluster.Spec.PlanName ≠ name.ClusterPlantType.Name then
      ({ zeebeCluster with Spec := { zeebeCluster.Spec with PlanName := name.ClusterPlantType.Name } }, true)
    else (zeebeCluster, modified)
  let (zeebeCluster, modified) :=
    if zeebeCluster.Spec.GenerationName ≠ name.Generation.Name then
      ({ zeebeCluster with Spec := { zeebeCluster.Spec with GenerationName := name.Generation.Name } }, true)
    else (zeebeCluster, modified)
  let (zeebeCluster, modified) :=
    if zeebeCluster.Spec.ChannelName ≠ name.Channel.Name then
      ({ zeebeCluster with Spec := { zeebeCluster.Spec with ChannelName := name.Channel.Name } }, true)
    else (zeebeCluster, modified)
  let (zeebeCluster, modified) :=
    if zeebeCluster.Spec.Region ≠ name.ClusterPlantType.K8sContext.Name then
      ({ zeebeCluster with Spec := { zeebeCluster.Spec with Region := name.ClusterPlantType.K8sContext.Name } }, true)
    else (zeebeCluster, modified)
  (zeebeCluster, modified)

/-- Reconcile, line 178: `go workerPollCCClusterDetails(zeebeCluster.Spec.ClusterId, r, zeebeCluster)`;
the worker receives a copy of the record. -/
def spawnWorker (zeebeCluster : ZeebeCluster) (w : World) : World :=
  { w with trace := w.trace ++ [Event.Go zeebeCluster.Spec.ClusterId zeebeCluster] }

/-- Reconcile, lines 146-181: drift sync against the remote definition and the
spawn of the status worker. -/
def reconcileTrack (env : Env) (zeebeCluster : ZeebeCluster) (w : World) : Option Err × World :=
  if zeebeCluster.Spec.ClusterId ≠ "" then
    let (name, err) := env.GetClusterByName w.trace zeebeCluster.Name
    let w := { w with trace := w.trace ++ [Event.GetClusterByName zeebeCluster.Name] }
    match err with
    | some err => (some err, w)
    | none =>
      let (zeebeCluster, modified) := driftSync zeebeCluster name
      if modified then
        match Update env zeebeCluster w with
        | (some err, w) => (some err, w)
        | (none, w) => (none, spawnWorker zeebeCluster w)
      else (none, spawnWorker zeebeCluster w)
  else
    (none, w)

/-- Reconcile, lines 127-144: remote creation when the record has no cluster id
and is not owned by "CC"; then the tracking part. -/
def reconcileCreate (env : Env) (req : NamespacedName) (zeebeCluster : ZeebeCluster) (w : World) :
    Option Err × World :=
  if zeebeCluster.Spec.ClusterId = "" ∧ zeebeCluster.Spec.Owner ≠ "CC" then
    let (clusterId, err) := env.CreateClusterWithParams w.trace req.Name zeebeCluster.Spec.PlanName
      zeebeCluster.Spec.ChannelName zeebeCluster.Spec.GenerationName zeebeCluster.Spec.Region
    let w := { w with trace := w.trace ++ [Event.CreateClusterWithParams req.Name
      zeebeCluster.Spec.PlanName zeebeCluster.Spec.ChannelName zeebeCluster.Spec.GenerationName
      zeebeCluster.Spec.Region] }
    match err with
    | some err => (some err, w)
    | none =>
      let zeebeCluster := { zeebeCluster with Spec := { zeebeCluster.Spec with ClusterId := clusterId } }
      match Update env zeebeCluster w with
      | (some err, w) => (some err, w)
      | (none, w) => reconcileTrack env zeebeCluster w
  else
    reconcileTrack env zeebeCluster w

/-- Reconcile (lines 83-182).  The error of `r.Get` is not acted on (lines
92-96), so an absent record leaves `zeebeCluster` at its zero value. -/
def Reconcile (env : Env) (req : NamespacedName) (w : World) : Option Err × World :=
  let zeebeCluster := (Get w.store req).getD zeroZeebeCluster
  if IsZero zeebeCluster.DeletionTimestamp then
    if !containsString zeebeCluster.Finalizers myFinalizerName then
      let zeebeCluster := { zeebeCluster with Finalizers := zeebeCluster.Finalizers ++ [myFinalizerName] }
      match Update env zeebeCluster w with
      | (some err, w) => (some err, w)
      | (none, w) => reconcileCreate env req zeebeCluster w
    else
      reconcileCreate env req zeebeCluster w
  else
    if containsString zeebeCluster.Finalizers myFinalizerName then
      match deleteExternalDependency env zeebeCluster w with
      | (some err, w) => (some err, w)
      | (none, w) =>
        let zeebeCluster := { zeebeCluster with Finalizers := removeString zeebeCluster.Finalizers myFinalizerName }
        match Update env zeebeCluster w with
        | (some err, w) => (some err, w)
        | (none, w) => (none, w)
    else
      (none, w)

/-- A run of redundant Reconcile invocations on one key, each reading the store
as the previous one left it. -/
def reconcileN (env : Env) (req : NamespacedName) : Nat → World → World
  | 0, w => w
  | n + 1, w => reconcileN env req n (Reconcile env req w).2

/-- One tick of workerPollCCClusterDetails (lines 192-209).  The state of the
worker is its own copy of the record.  The fetch error is only logged;
`cmp.Diff(a, b) != ""` is structural inequality; the local status is assigned
before the status write and the error of the write is dropped. -/
def workerTick (env : Env) (clusterId : String) (p : ZeebeCluster × World) : ZeebeCluster × World :=
  let zeebeCluster := p.1
  let w := p.2
  let (resp, _err) := env.GetClusterDetails w.trace clusterId
  let w := { w with trace := w.trace ++ [Event.GetClusterDetails clusterId] }
  if zeebeCluster.Status.ClusterStatus ≠ resp then
    let zeebeCluster := { zeebeCluster with Status := { zeebeCluster.Status with ClusterStatus := resp } }
    (zeebeCluster, (StatusUpdate env zeebeCluster w).2)
  else
    (zeebeCluster, w)

/-- workerPollCCClusterDetails (lines 186-212) observed for `ticks` ticks of its
ticker; the loop has no exit. -/
def workerPollCCClusterDetails (env : Env) (clusterId : String) :
    Nat → ZeebeCluster × World → ZeebeCluster × World
  | 0, p => p
  | ticks + 1, p => workerPollCCClusterDetails env clusterId ticks (workerTick env clusterId p)

/-- The remote create calls of a log, with their arguments. -/
def creates (t : List Event) : List (String × String × String × String × String) :=
  t.filterMap fun e => match e with
    | Event.CreateClusterWithParams a b c d e => some (a, b, c, d, e)
    | _ => none

/-- The remote get-by-name calls of a log. -/
def getByNames (t : List Event) : List String :=
  t.filterMap fun e => match e with
    | Event.GetClusterByName n => some n
    | _ => none

/-- The remote delete calls of a log. -/
def deletes (t : List Event) : List String :=
  t.filterMap fun e => match e with
    | Event.DeleteCluster c => some c
    | _ => none

/-- The Record Store writes (`r.Update`) of a log, with the object written. -/
def updates (t : List Event) : List ZeebeCluster :=
  t.filterMap fun e => match e with
    | Event.Update z => some z
    | _ => none

/-- The status writes (`r.Status().Update`) of a log. -/
def statusUpdates (t : List Event) : List ZeebeCluster :=
  t.filterMap fun e => match e with
    | Event.StatusUpdate z => some z
    | _ => none

/-- The cluster ids for which a status worker was started, one entry per start. -/
def spawns (t : List Event) : List String :=
  t.filterMap fun e => match e with
    | Event.Go c _ => some c
    | _ => none

/-- The remote status fetches (get-by-id) of a log. -/
def fetches (t : List Event) : List String :=
  t.filterMap fun e => match e with
    | Event.GetClusterDetails c => some c
    | _ => none

/-- Two records agree on everything but the four fields mirrored from the remote
definition (plan, generation, channel, region). -/
def sameIdentity (a b : ZeebeCluster) : Prop :=
  a.Name = b.Name ∧ a.Namespace = b.Namespace ∧ a.Finalizers = b.Finalizers
    ∧ a.DeletionTimestamp = b.DeletionTimestamp ∧ a.Spec.Owner = b.Spec.Owner
    ∧ a.Spec.ClusterId = b.Spec.ClusterId ∧ a.Spec.Track = b.Spec.Track ∧ a.Status = b.Status

/-! ## Concrete environments and records used by the witnesses -/

/-- A status reporting a healthy cluster. -/
def statusHealthy : ClusterStatus :=
  { Ready := "Healthy", PlanName := "p1", Region := "r1", ChannelName := "ch1", GenerationName := "g1" }

/-- A status reporting a cluster that is still being created. -/
def statusCreating : ClusterStatus :=
  { Ready := "Creating", PlanName := "p1", Region := "r1", ChannelName := "ch1", GenerationName := "g1" }

/-- The remote definition answered by the sample environments. -/
def remoteDef : Cluster :=
  { ClusterPlantType := { Name := "p2", K8sContext := { Name := "r2" } },
    Generation := { Name := "g2" }, Channel := { Name := "ch2" } }

/-- Every collaborator succeeds: create answers "abc-123", get-by-name answers
`remoteDef`, delete answers deleted, get-by-id answers `statusHealthy`, writes
are accepted. -/
def envOk : Env :=
  { CreateClusterWithParams := fun _ _ _ _ _ _ => ("abc-123", none),
    GetClusterByName := fun _ _ => (remoteDef, none),
    DeleteCluster := fun _ _ => (true, none),
    GetClusterDetails := fun _ _ => (statusHealthy, none),
    Update := fun _ _ => none,
    StatusUpdate := fun _ _ => none }

/-- As `envOk`, but the remote delete fails. -/
def envDeleteFails : Env :=
  { envOk with DeleteCluster := fun _ _ => (false, some "request timed out") }

/-- As `envOk`, but every Record Store write is rejected. -/
def envRejectWrites : Env :=
  { envOk with Update := fun _ _ => some "conflict" }

/-- As `envOk`, but the Record Store rejects every write of a record that
carries a cluster id (an optimistic-concurrency conflict on the write that
follows the remote create). -/
def envConflict : Env :=
  { envOk with Update := fun _ obj => if obj.Spec.ClusterId = "" then none else some "conflict" }

/-- As `envOk`, but the Record Store rejects the very first call it sees (the
write made on an empty log) and accepts every later one. -/
def envFirstWriteRejected : Env :=
  { envOk with Update := fun h _ => if h = [] then some "conflict" else none }

/-- As `envOk`, but the remote status fetch fails and returns the zero status
next to the error. -/
def envFetchFails : Env :=
  { envOk with GetClusterDetails := fun _ _ => (zeroZeebeCluster.Status.ClusterStatus, some "network error") }

/-- As `envOk`, but every status write is rejected. -/
def envStatusRejected : Env :=
  { envOk with StatusUpdate := fun _ _ => some "conflict" }

/-- As `envOk`, but get-by-id answers `statusCreating` for the first two fetches
of the log and `statusHealthy` afterwards. -/
def envSettles : Env :=
  { envOk with GetClusterDetails := fun h _ =>
      if (fetches h).length < 2 then (statusCreating, none) else (statusHealthy, none) }

/-- The key of the sample records. -/
def keyC1 : NamespacedName := { Namespace := "default", Name := "c1" }

/-- A freshly declared record: no cluster id, no finalizer, plan "p1". -/
def recNew : ZeebeCluster :=
  { zeroZeebeCluster with
    Name := "c1", Namespace := "default",
    Spec := { zeroZeebeCluster.Spec with PlanName := "p1" } }

/-- A record adopting an existing remote cluster: owner "CC", cluster id set, no
finalizer yet. -/
def recAdopted : ZeebeCluster :=
  { zeroZeebeCluster with
    Name := "c1", Namespace := "default",
    Spec := { zeroZeebeCluster.Spec with Owner := "CC", ClusterId := "abc-123", PlanName := "p1" } }

/-- A tracked record: cluster id set, finalizer attached, in sync with `remoteDef`. -/
def recTracked : ZeebeCluster :=
  { Name := "c1", Namespace := "default", Finalizers := [myFinalizerName], DeletionTimestamp := none,
    Spec := { Owner := "", Track := true, ClusterId := "abc-123", Region := "r2",
              ChannelName := "ch2", GenerationName := "g2", PlanName := "p2" },
    Status := { ClusterStatus := statusCreating } }

/-- A tracked record whose plan drifted from `remoteDef`. -/
def recDrifted : ZeebeCluster :=
  { recTracked with Spec := { recTracked.Spec with PlanName := "p1" } }

/-- A record whose deletion was requested, finalizer still attached, healthy status. -/
def recDeleting : ZeebeCluster :=
  { recTracked with DeletionTimestamp := some 1700000000, Status := { ClusterStatus := statusHealthy } }

/-! ## List helpers -/

theorem removeString_foldl (slice acc : List String) (s : String) :
    slice.foldl (fun result item => if item = s then result else result ++ [item]) acc
      = acc ++ slice.filter (fun item => decide (item ≠ s)) := by
  induction slice generalizing acc with
  | nil => simp
  | cons a rest ih =>
    by_cases h : a = s
    · simp [List.foldl_cons, h, ih]
    · simp [List.foldl_cons, h, ih]

theorem removeString_eq_filter (slice : List String) (s : String) :
    removeString slice s = slice.filter (fun item => decide (item ≠ s)) := by
  simp [removeString, removeString_foldl]

theorem containsString_iff (slice : List String) (s : String) :
    containsString slice s = true ↔ s ∈ slice := by
  induction slice with
  | nil => simp [containsString]
  | cons a rest ih =>
    by_cases h : a = s
    · simp [containsString, h]
    · have h2 : ¬ s = a := fun e => h e.symm
      simp [containsString, h, h2, ih]

theorem containsString_removeString_self (l : List String) (s : String) :
    containsString (removeString l s) s = false := by
  rw [Bool.eq_false_iff, Ne, containsString_iff, removeString_eq_filter]
  simp

/-- Claim C10: removeString(l, s) is l with every occurrence of s deleted and
all other elements kept in their original order; hence s is no longer contained,
containment of every other token t is unchanged, and when s does not occur in l
the result is l itself. -/
theorem removeString_frame (l : List String) (s : String) :
    removeString l s = l.filter (fun item => decide (item ≠ s))
    ∧ containsString (removeString l s) s = false
    ∧ (∀ t, t ≠ s → containsString (removeString l s) t = containsString l t)
    ∧ (containsString l s = false → removeString l s = l) := by
  refine ⟨removeString_eq_filter l s, containsString_removeString_self l s, ?_, ?_⟩
  · intro t ht
    rw [Bool.eq_iff_iff, containsString_iff, containsString_iff, removeString_eq_filter]
    simp [List.mem_filter, ht]
  · intro h
    rw [Bool.eq_false_iff, Ne, containsString_iff] at h
    rw [removeString_eq_filter, List.filter_eq_self]
    intro a ha
    have : a ≠ s := fun e => h (e ▸ ha)
    simpa using this

/-- Witness for C10 on a finalizer list holding the cleanup token twice. -/
theorem removeString_frame_witness :
    removeString ["a", myFinalizerName, "b", myFinalizerName] myFinalizerName = ["a", "b"]
    ∧ containsString (removeString ["a", "b"] myFinalizerName) "a" = true
    ∧ removeString ["a", "b"] myFinalizerName = ["a", "b"] := by
  refine ⟨?_, ?_, ?_⟩
  · rw [(removeString_frame _ _).1]; decide
  · rw [(removeString_frame ["a", "b"] myFinalizerName).2.2.1 "a" (by decide)]; decide
  · exact (removeString_frame ["a", "b"] myFinalizerName).2.2.2 (by decide)

/-! ## The Record Store -/

theorem Get_key {store : List ZeebeCluster} {key : NamespacedName} {z : ZeebeCluster}
    (h : Get store key = some z) : z.Namespace = key.Namespace ∧ z.Name = key.Name := by
  have := List.find?_some h
  simpa using this

theorem Get_put {store : List ZeebeCluster} {key : NamespacedName} {z0 obj : ZeebeCluster}
    (h : Get store key = some z0) (hns : obj.Namespace = key.Namespace) (hn : obj.Name = key.Name)
    (hst : obj.Status = z0.Status) :
    Get (put store obj) key = some obj := by
  induction store with
  | nil => simp [Get] at h
  | cons a rest ih =>
    by_cases ha : a.Namespace = key.Namespace ∧ a.Name = key.Name
    · have hr : a = z0 := by simpa [Get, List.find?_cons, ha] using h
      subst hr
      have hobj : ({ obj with Status := a.Status } : ZeebeCluster) = obj := by
        rw [← hst]
      have hk1 : sameKey a obj = true := by simp [sameKey, ha.1, ha.2, hns, hn]
      have hk2 : (obj.Namespace == key.Namespace && obj.Name == key.Name) = true := by simp [hns, hn]
      unfold Get put
      rw [List.map_cons, if_pos hk1, hobj, List.find?_cons]
      simp only [hk2]
    · have hrest : Get rest key = some z0 := by
        simpa [Get, List.find?_cons, ha] using h
      have ih2 := ih hrest
      have hk : sameKey a obj = false := by
        rw [Bool.eq_false_iff]
        intro hs
        apply ha
        simp only [sameKey, Bool.and_eq_true, beq_iff_eq] at hs
        exact ⟨hs.1.trans hns, hs.2.trans hn⟩
      have hka : (a.Namespace == key.Namespace && a.Name == key.Name) = false := by
        rw [Bool.eq_false_iff]
        intro hs
        apply ha
        simpa using hs
      unfold Get put at ih2 ⊢
      rw [List.map_cons, List.find?_cons]
      simp only [hk, Bool.false_eq_true, if_false, hka]
      exact ih2

/-! ## Projections of the log -/

@[simp] theorem creates_append (a b : List Event) : creates (a ++ b) = creates a ++ creates b := by
  simp [creates, List.filterMap_append]

@[simp] theorem getByNames_append (a b : List Event) :
    getByNames (a ++ b) = getByNames a ++ getByNames b := by
  simp [getByNames, List.filterMap_append]

@[simp] theorem deletes_append (a b : List Event) : deletes (a ++ b) = deletes a ++ deletes b := by
  simp [deletes, List.filterMap_append]

@[simp] theorem updates_append (a b : List Event) : updates (a ++ b) = updates a ++ updates b := by
  simp [updates, List.filterMap_append]

@[simp] theorem statusUpdates_append (a b : List Event) :
    statusUpdates (a ++ b) = statusUpdates a ++ statusUpdates b := by
  simp [statusUpdates, List.filterMap_append]

@[simp] theorem spawns_append (a b : List Event) : spawns (a ++ b) = spawns a ++ spawns b := by
  simp [spawns, List.filterMap_append]

@[simp] theorem fetches_append (a b : List Event) : fetches (a ++ b) = fetches a ++ fetches b := by
  simp [fetches, List.filterMap_append]

/-! ## The stages of Reconcile -/

theorem Update_fst (env : Env) (obj : ZeebeCluster) (w : World) :
    (Update env obj w).1 = env.Update w.trace obj := by
  unfold Update
  cases env.Update w.trace obj <;> rfl

theorem Update_trace (env : Env) (obj : ZeebeCluster) (w : World) :
    (Update env obj w).2.trace = w.trace ++ [Event.Update obj] := by
  unfold Update
  cases env.Update w.trace obj <;> rfl

theorem Update_store_ok {env : Env} {obj : ZeebeCluster} {w : World}
    (h : env.Update w.trace obj = none) : (Update env obj w).2.store = put w.store obj := by
  unfold Update
  rw [h]

theorem Update_store_err {env : Env} {obj : ZeebeCluster} {w : World} {e : Err}
    (h : env.Update w.trace obj = some e) : (Update env obj w).2.store = w.store := by
  unfold Update
  rw [h]

theorem Update_eq_ok {env : Env} {obj : ZeebeCluster} {w : World}
    (h : env.Update w.trace obj = none) :
    Update env obj w = (none, { store := put w.store obj, trace := w.trace ++ [Event.Update obj] }) := by
  unfold Update
  rw [h]

theorem Update_eq_err {env : Env} {obj : ZeebeCluster} {w : World} {e : Err}
    (h : env.Update w.trace obj = some e) :
    Update env obj w = (some e, { w with trace := w.trace ++ [Event.Update obj] }) := by
  unfold Update
  rw [h]

theorem deleteExternalDependency_fst (env : Env) (z : ZeebeCluster) (w : World) :
    (deleteExternalDependency env z w).1 = none := by
  unfold deleteExternalDependency
  split <;> rfl

theorem deleteExternalDependency_store (env : Env) (z : ZeebeCluster) (w : World) :
    (deleteExternalDependency env z w).2.store = w.store := by
  unfold deleteExternalDependency
  split <;> rfl

theorem deleteExternalDependency_trace (env : Env) (z : ZeebeCluster) (w : World) :
    (deleteExternalDependency env z w).2.trace = w.trace ++
      (if z.Status.ClusterStatus.Ready ≠ "Not Found" then [Event.DeleteCluster z.Spec.ClusterId] else []) := by
  unfold deleteExternalDependency
  split <;> simp

/-- The deletion branch of Reconcile (lines 109-126) in closed form. -/
theorem Reconcile_deleting {env : Env} {req : NamespacedName} {w : World} {z : ZeebeCluster}
    (hget : Get w.store req = some z) (hdel : IsZero z.DeletionTimestamp = false) :
    Reconcile env req w =
      if containsString z.Finalizers myFinalizerName then
        Update env { z with Finalizers := removeString z.Finalizers myFinalizerName }
          (deleteExternalDependency env z w).2
      else (none, w) := by
  unfold Reconcile
  simp only [hget, Option.getD_some, hdel]
  by_cases hf : containsString z.Finalizers myFinalizerName = true
  · simp only [hf, if_true]
    have h1 := deleteExternalDependency_fst env z w
    rcases hd : deleteExternalDependency env z w with ⟨e, w1⟩
    rw [hd] at h1
    simp only at h1
    subst h1
    simp only [Bool.false_eq_true, if_false]
    rcases hu : Update env { z with Finalizers := removeString z.Finalizers myFinalizerName } w1 with ⟨e2, w2⟩
    cases e2 <;> rfl
  · simp [hf]

theorem driftSync_fst (z : ZeebeCluster) (name : Cluster) :
    (driftSync z name).1 = { z with Spec := { z.Spec with
      PlanName := name.ClusterPlantType.Name, GenerationName := name.Generation.Name,
      ChannelName := name.Channel.Name, Region := name.ClusterPlantType.K8sContext.Name } } := by
  obtain ⟨n, ns, f, d, ⟨o, t, c, r, ch, g, p⟩, st⟩ := z
  simp only [driftSync]
  by_cases h1 : p = name.ClusterPlantType.Name <;> by_cases h2 : g = name.Generation.Name <;>
    by_cases h3 : ch = name.Channel.Name <;> by_cases h4 : r = name.ClusterPlantType.K8sContext.Name <;>
    simp [h1, h2, h3, h4]

theorem driftSync_snd (z : ZeebeCluster) (name : Cluster) :
    (driftSync z name).2 = true ↔
      (z.Spec.PlanName ≠ name.ClusterPlantType.Name ∨ z.Spec.GenerationName ≠ name.Generation.Name
        ∨ z.Spec.ChannelName ≠ name.Channel.Name ∨ z.Spec.Region ≠ name.ClusterPlantType.K8sContext.Name) := by
  obtain ⟨n, ns, f, d, ⟨o, t, c, r, ch, g, p⟩, st⟩ := z
  simp only [driftSync]
  by_cases h1 : p = name.ClusterPlantType.Name <;> by_cases h2 : g = name.Generation.Name <;>
    by_cases h3 : ch = name.Channel.Name <;> by_cases h4 : r = name.ClusterPlantType.K8sContext.Name <;>
    simp [h1, h2, h3, h4]

/-- The tracking part when the record has no cluster id. -/
theorem reconcileTrack_noId {env : Env} {z : ZeebeCluster} {w : World}
    (hid : z.Spec.ClusterId = "") : reconcileTrack env z w = (none, w) := by
  unfold reconcileTrack
  simp [hid]

/-- The tracking part in closed form when the record has a cluster id. -/
theorem reconcileTrack_id {env : Env} {z : ZeebeCluster} {w : World}
    (hid : z.Spec.ClusterId ≠ "") :
    reconcileTrack env z w =
      let w1 : World := { w with trace := w.trace ++ [Event.GetClusterByName z.Name] }
      match (env.GetClusterByName w.trace z.Name).2 with
      | some err => (some err, w1)
      | none =>
        let z1 := (driftSync z (env.GetClusterByName w.trace z.Name).1).1
        if (driftSync z (env.GetClusterByName w.trace z.Name).1).2 = true then
          match env.Update w1.trace z1 with
          | some err => (some err, { w1 with trace := w1.trace ++ [Event.Update z1] })
          | none => (none, spawnWorker z1 { store := put w1.store z1, trace := w1.trace ++ [Event.Update z1] })
        else (none, spawnWorker z1 w1) := by
  unfold reconcileTrack
  rw [if_pos hid]
  rcases hg : env.GetClusterByName w.trace z.Name with ⟨name, err⟩
  cases err with
  | some e => rfl
  | none =>
    simp only
    rcases hd : driftSync z name with ⟨z1, m⟩
    cases m with
    | false => simp
    | true =>
      simp only [if_true]
      unfold Update
      cases hu : env.Update (w.trace ++ [Event.GetClusterByName z.Name]) z1 <;> simp [hu]

/-- The creation part when the guard of line 129 is false. -/
theorem reconcileCreate_skip {env : Env} {req : NamespacedName} {z : ZeebeCluster} {w : World}
    (h : ¬ (z.Spec.ClusterId = "" ∧ z.Spec.Owner ≠ "CC")) :
    reconcileCreate env req z w = reconcileTrack env z w := by
  unfold reconcileCreate
  rw [if_neg h]

/-- The creation part in closed form when the guard of line 129 is true. -/
theorem reconcileCreate_call {env : Env} {req : NamespacedName} {z : ZeebeCluster} {w : World}
    (h : z.Spec.ClusterId = "" ∧ z.Spec.Owner ≠ "CC") :
    reconcileCreate env req z w =
      let resp := env.CreateClusterWithParams w.trace req.Name z.Spec.PlanName z.Spec.ChannelName
        z.Spec.GenerationName z.Spec.Region
      let w1 : World := { w with trace := w.trace ++ [Event.CreateClusterWithParams req.Name
        z.Spec.PlanName z.Spec.ChannelName z.Spec.GenerationName z.Spec.Region] }
      match resp.2 with
      | some err => (some err, w1)
      | none =>
        let zc := { z with Spec := { z.Spec with ClusterId := resp.1 } }
        match env.Update w1.trace zc with
        | some err => (some err, { w1 with trace := w1.trace ++ [Event.Update zc] })
        | none => reconcileTrack env zc { store := put w1.store zc, trace := w1.trace ++ [Event.Update zc] } := by
  unfold reconcileCreate
  rw [if_pos h]
  rcases hc : env.CreateClusterWithParams w.trace req.Name z.Spec.PlanName z.Spec.ChannelName
    z.Spec.GenerationName z.Spec.Region with ⟨c, err⟩
  cases err with
  | some e => rfl
  | none =>
    simp only
    unfold Update
    cases hu : env.Update (w.trace ++ [Event.CreateClusterWithParams req.Name
        z.Spec.PlanName z.Spec.ChannelName z.Spec.GenerationName z.Spec.Region])
        { z with Spec := { z.Spec with ClusterId := c } } <;> simp [hu]

/-- The branch of Reconcile for a record that is not being deleted (lines
100-108), in closed form; `z` is the record as fetched, or the zero value. -/
theorem Reconcile_live {env : Env} {req : NamespacedName} {w : World} {z : ZeebeCluster}
    (hz : (Get w.store req).getD zeroZeebeCluster = z) (hlive : IsZero z.DeletionTimestamp = true) :
    Reconcile env req w =
      if containsString z.Finalizers myFinalizerName = true then reconcileCreate env req z w
      else
        let zf := { z with Finalizers := z.Finalizers ++ [myFinalizerName] }
        match env.Update w.trace zf with
        | some err => (some err, { w with trace := w.trace ++ [Event.Update zf] })
        | none => reconcileCreate env req zf { store := put w.store zf, trace := w.trace ++ [Event.Update zf] } := by
  unfold Reconcile
  simp only [hz, hlive, if_true]
  by_cases hf : containsString z.Finalizers myFinalizerName = true
  · simp [hf]
  · simp only [hf, Bool.not_eq_true] at *
    simp only [hf, Bool.not_false, if_true, Bool.false_eq_true, if_false]
    unfold Update
    cases hu : env.Update w.trace { z with Finalizers := z.Finalizers ++ [myFinalizerName] } <;> simp [hu]

/-- The drift sync changes nothing but the four mirrored fields. -/
theorem driftSync_sameIdentity (z : ZeebeCluster) (name : Cluster) :
    sameIdentity z (driftSync z name).1 := by
  rw [driftSync_fst]
  simp [sameIdentity]

theorem sameIdentity_refl (z : ZeebeCluster) : sameIdentity z z := by
  simp [sameIdentity]

/-- Whatever the collaborators answer, after the tracking part the store still
holds a record under the key that differs from the one it held at most in the
four mirrored fields. -/
theorem reconcileTrack_store (env : Env) {key : NamespacedName} {z : ZeebeCluster} {w : World}
    (hget : Get w.store key = some z) :
    ∃ z', Get (reconcileTrack env z w).2.store key = some z' ∧ sameIdentity z z' := by
  by_cases hid : z.Spec.ClusterId = ""
  · rw [reconcileTrack_noId hid]
    exact ⟨z, hget, sameIdentity_refl z⟩
  · rw [reconcileTrack_id hid]
    simp only
    cases (env.GetClusterByName w.trace z.Name).2 with
    | some e => exact ⟨z, hget, sameIdentity_refl z⟩
    | none =>
      simp only
      split
      · cases env.Update (w.trace ++ [Event.GetClusterByName z.Name])
          (driftSync z (env.GetClusterByName w.trace z.Name).1).1 with
        | some e => exact ⟨z, hget, sameIdentity_refl z⟩
        | none =>
          have hs := driftSync_sameIdentity z (env.GetClusterByName w.trace z.Name).1
          refine ⟨_, ?_, hs⟩
          simp only [spawnWorker]
          exact Get_put hget (hs.2.1.symm.trans (Get_key hget).1) (hs.1.symm.trans (Get_key hget).2)
            hs.2.2.2.2.2.2.2.symm
      · exact ⟨z, hget, sameIdentity_refl z⟩

/-- The tracking part makes no remote create and no remote delete call. -/
theorem reconcileTrack_creates (env : Env) (z : ZeebeCluster) (w : World) :
    creates (reconcileTrack env z w).2.trace = creates w.trace := by
  by_cases hid : z.Spec.ClusterId = ""
  · rw [reconcileTrack_noId hid]
  · rw [reconcileTrack_id hid]
    simp only
    cases (env.GetClusterByName w.trace z.Name).2 with
    | some e => simp [creates]
    | none =>
      simp only
      split
      · cases env.Update (w.trace ++ [Event.GetClusterByName z.Name])
          (driftSync z (env.GetClusterByName w.trace z.Name).1).1 <;> simp [creates, spawnWorker]
      · simp [creates, spawnWorker]

/-- The creation part under accepted writes: the create call is made exactly
under the guard of line 129, and a successful answer ends up in the store. -/
theorem reconcileCreate_accepted {env : Env} {req : NamespacedName} {z : ZeebeCluster} {w : World}
    (hget : Get w.store req = some z) (hwrite : ∀ h obj, env.Update h obj = none) :
    creates (reconcileCreate env req z w).2.trace = creates w.trace ++
      (if z.Spec.ClusterId = "" ∧ z.Spec.Owner ≠ "CC" then
        [(req.Name, z.Spec.PlanName, z.Spec.ChannelName, z.Spec.GenerationName, z.Spec.Region)]
       else [])
    ∧ ∀ c, z.Spec.ClusterId = "" → z.Spec.Owner ≠ "CC" →
        (∀ h, env.CreateClusterWithParams h req.Name z.Spec.PlanName z.Spec.ChannelName
          z.Spec.GenerationName z.Spec.Region = (c, none)) →
        ∃ z', Get (reconcileCreate env req z w).2.store req = some z'
          ∧ z'.Spec.ClusterId = c ∧ z'.Finalizers = z.Finalizers := by
  by_cases hc : z.Spec.ClusterId = "" ∧ z.Spec.Owner ≠ "CC"
  · rw [reconcileCreate_call hc, if_pos hc]
    simp only [hwrite]
    constructor
    · cases (env.CreateClusterWithParams w.trace req.Name z.Spec.PlanName z.Spec.ChannelName
        z.Spec.GenerationName z.Spec.Region).2 with
      | some e => simp [creates]
      | none =>
        simp only
        rw [reconcileTrack_creates]
        simp [creates]
    · intro c _ _ hcall
      rw [hcall]
      simp only
      have hk := Get_key hget
      have hput : Get (put w.store { z with Spec := { z.Spec with ClusterId := c } }) req
          = some { z with Spec := { z.Spec with ClusterId := c } } := Get_put hget hk.1 hk.2 rfl
      obtain ⟨z', hz', hs⟩ := reconcileTrack_store env
        (w := { store := put w.store { z with Spec := { z.Spec with ClusterId := c } },
                trace := w.trace ++ [Event.CreateClusterWithParams req.Name z.Spec.PlanName
                  z.Spec.ChannelName z.Spec.GenerationName z.Spec.Region]
                  ++ [Event.Update { z with Spec := { z.Spec with ClusterId := c } }] }) hput
      exact ⟨z', hz', hs.2.2.2.2.2.1.symm, hs.2.2.1.symm⟩
  · rw [reconcileCreate_skip hc, if_neg hc, reconcileTrack_creates]
    refine ⟨by simp, ?_⟩
    intro c h1 h2
    exact absurd ⟨h1, h2⟩ hc

/-- Claim C3: for a record that is not being deleted, with Record Store writes
accepted, Reconcile calls the remote create operation if and only if
remoteClusterId is empty and owner is not "CC", exactly once, with arguments
(record name, planName, channelName, generationName, region); and when the call
succeeds with id c the record the store holds after the invocation has
remoteClusterId = c and carries the cleanup finalizer. -/
theorem Reconcile_create (env : Env) (req : NamespacedName) (w : World) (z : ZeebeCluster)
    (hget : Get w.store req = some z)
    (hlive : IsZero z.DeletionTimestamp = true)
    (hwrite : ∀ h obj, env.Update h obj = none) :
    creates (Reconcile env req w).2.trace = creates w.trace ++
      (if z.Spec.ClusterId = "" ∧ z.Spec.Owner ≠ "CC" then
        [(z.Name, z.Spec.PlanName, z.Spec.ChannelName, z.Spec.GenerationName, z.Spec.Region)]
       else [])
    ∧ ∀ c, z.Spec.ClusterId = "" → z.Spec.Owner ≠ "CC" →
        (∀ h, env.CreateClusterWithParams h z.Name z.Spec.PlanName z.Spec.ChannelName
          z.Spec.GenerationName z.Spec.Region = (c, none)) →
        ∃ z', Get (Reconcile env req w).2.store req = some z'
          ∧ z'.Spec.ClusterId = c ∧ containsString z'.Finalizers myFinalizerName = true := by
  have hk := Get_key hget
  have hz : (Get w.store req).getD zeroZeebeCluster = z := by rw [hget]; rfl
  rw [Reconcile_live hz hlive]
  by_cases hf : containsString z.Finalizers myFinalizerName = true
  · rw [if_pos hf]
    obtain ⟨h1, h2⟩ := reconcileCreate_accepted hget hwrite
    rw [← hk.2] at h1 h2
    refine ⟨h1, ?_⟩
    intro c hc1 hc2 hcall
    obtain ⟨z', hz', hid, hfin⟩ := h2 c hc1 hc2 hcall
    exact ⟨z', hz', hid, by rw [hfin]; exact hf⟩
  · rw [if_neg hf]
    simp only [hwrite]
    have hput : Get (put w.store { z with Finalizers := z.Finalizers ++ [myFinalizerName] }) req
        = some { z with Finalizers := z.Finalizers ++ [myFinalizerName] } := Get_put hget hk.1 hk.2 rfl
    obtain ⟨h1, h2⟩ := reconcileCreate_accepted
      (w := { store := put w.store { z with Finalizers := z.Finalizers ++ [myFinalizerName] },
              trace := w.trace ++ [Event.Update { z with Finalizers := z.Finalizers ++ [myFinalizerName] }] })
      hput hwrite
    rw [← hk.2] at h1 h2
    constructor
    · rw [h1]; simp [creates]
    · intro c hc1 hc2 hcall
      obtain ⟨z', hz', hid, hfin⟩ := h2 c hc1 hc2 hcall
      refine ⟨z', hz', hid, ?_⟩
      rw [hfin, containsString_iff]
      simp

/-- Witness for C3: the fresh record "c1" with plan "p1" is created remotely with
("c1", "p1", "", "", "") and ends up with id "abc-123" and the finalizer. -/
theorem Reconcile_create_witness :
    creates (Reconcile envOk keyC1 ⟨[recNew], []⟩).2.trace = creates [] ++
      (if recNew.Spec.ClusterId = "" ∧ recNew.Spec.Owner ≠ "CC" then
        [(recNew.Name, recNew.Spec.PlanName, recNew.Spec.ChannelName, recNew.Spec.GenerationName,
          recNew.Spec.Region)]
       else [])
    ∧ ∃ z', Get (Reconcile envOk keyC1 ⟨[recNew], []⟩).2.store keyC1 = some z'
          ∧ z'.Spec.ClusterId = "abc-123" ∧ containsString z'.Finalizers myFinalizerName = true :=
  have h := Reconcile_create envOk keyC1 ⟨[recNew], []⟩ recNew (by decide) (by decide) (fun _ _ => rfl)
  ⟨h.1, h.2 "abc-123" (by decide) (by decide) (fun _ => rfl)⟩

/-- An invocation that observes deletionRequested set makes no remote create
call, no get-by-name call and starts no status worker. -/
theorem Reconcile_deleting_quiet (env : Env) {req : NamespacedName} {w : World} {z : ZeebeCluster}
    (hget : Get w.store req = some z) (hdel : IsZero z.DeletionTimestamp = false) :
    creates (Reconcile env req w).2.trace = creates w.trace
    ∧ getByNames (Reconcile env req w).2.trace = getByNames w.trace
    ∧ spawns (Reconcile env req w).2.trace = spawns w.trace := by
  rw [Reconcile_deleting hget hdel]
  split
  · simp [Update_trace, deleteExternalDependency_trace, creates, getByNames, spawns]
  · simp

/-- Claim C4: for a record with deletionRequested set and the cleanup finalizer
present, when cleanup succeeds (the remote delete, where it is called, returns no
error and the Record Store accepts the write): Reconcile calls the remote delete
with the record's remoteClusterId exactly when the status readiness is not
"Not Found"; the one record it writes, and the store then holds, is the record
without the cleanup finalizer; it returns no error; the invocation makes no
remote create call, no get-by-name call and starts no status worker, and neither
does any invocation that observes deletionRequested set. -/
theorem Reconcile_cleanup (env : Env) (req : NamespacedName) (w : World) (z : ZeebeCluster)
    (hget : Get w.store req = some z)
    (hdel : IsZero z.DeletionTimestamp = false)
    (hfin : containsString z.Finalizers myFinalizerName = true)
    (_hdelete : z.Status.ClusterStatus.Ready ≠ "Not Found" →
      (env.DeleteCluster w.trace z.Spec.ClusterId).2 = none)
    (hwrite : ∀ h, env.Update h { z with Finalizers := removeString z.Finalizers myFinalizerName } = none) :
    deletes (Reconcile env req w).2.trace = deletes w.trace ++
      (if z.Status.ClusterStatus.Ready ≠ "Not Found" then [z.Spec.ClusterId] else [])
    ∧ updates (Reconcile env req w).2.trace = updates w.trace ++
        [{ z with Finalizers := removeString z.Finalizers myFinalizerName }]
    ∧ containsString (removeString z.Finalizers myFinalizerName) myFinalizerName = false
    ∧ (Reconcile env req w).1 = none
    ∧ Get (Reconcile env req w).2.store req
        = some { z with Finalizers := removeString z.Finalizers myFinalizerName }
    ∧ creates (Reconcile env req w).2.trace = creates w.trace
    ∧ getByNames (Reconcile env req w).2.trace = getByNames w.trace
    ∧ spawns (Reconcile env req w).2.trace = spawns w.trace
    ∧ ∀ (w' : World) (z' : ZeebeCluster), Get w'.store req = some z' →
        IsZero z'.DeletionTimestamp = false →
        creates (Reconcile env req w').2.trace = creates w'.trace
        ∧ getByNames (Reconcile env req w').2.trace = getByNames w'.trace
        ∧ spawns (Reconcile env req w').2.trace = spawns w'.trace := by
  have hq := Reconcile_deleting_quiet env hget hdel
  refine ⟨?_, ?_, containsString_removeString_self _ _, ?_, ?_, hq.1, hq.2.1, hq.2.2, ?_⟩
  · rw [Reconcile_deleting hget hdel, if_pos hfin, Update_trace, deleteExternalDependency_trace]
    simp only [deletes_append]
    split <;> simp [deletes]
  · rw [Reconcile_deleting hget hdel, if_pos hfin, Update_trace, deleteExternalDependency_trace]
    simp only [updates_append]
    split <;> simp [updates]
  · rw [Reconcile_deleting hget hdel, if_pos hfin, Update_fst]
    exact hwrite _
  · rw [Reconcile_deleting hget hdel, if_pos hfin, Update_store_ok (hwrite _),
      deleteExternalDependency_store]
    exact Get_put hget (Get_key hget).1 (Get_key hget).2 rfl
  · intro w' z' hget' hdel'
    exact Reconcile_deleting_quiet env hget' hdel'

/-- Witness for C4: the healthy record "c1" under deletion is deleted remotely
under its id "abc-123" and written back without the finalizer. -/
theorem Reconcile_cleanup_witness :
    deletes (Reconcile envOk keyC1 ⟨[recDeleting], []⟩).2.trace = ["abc-123"]
    ∧ updates (Reconcile envOk keyC1 ⟨[recDeleting], []⟩).2.trace = [{ recDeleting with Finalizers := [] }]
    ∧ (Reconcile envOk keyC1 ⟨[recDeleting], []⟩).1 = none
    ∧ creates (Reconcile envOk keyC1 ⟨[recDeleting], []⟩).2.trace = [] :=
  have h := Reconcile_cleanup envOk keyC1 ⟨[recDeleting], []⟩ recDeleting (by decide) (by decide)
    (by decide) (fun _ => rfl) (fun _ => rfl)
  ⟨h.1, h.2.1, h.2.2.2.1, h.2.2.2.2.2.1⟩

/-- Claim C1, evaluated at a failing delete: record "c1" is under deletion with
the finalizer attached and a healthy status, and the remote delete returns an
error.  Reconcile returns no error, and the record it writes and the store then
holds has lost the cleanup finalizer. -/
theorem Reconcile_delete_failure_drops_finalizer :
    (envDeleteFails.DeleteCluster [] recDeleting.Spec.ClusterId).2 = some "request timed out"
    ∧ (Reconcile envDeleteFails keyC1 ⟨[recDeleting], []⟩).1 = none
    ∧ (Reconcile envDeleteFails keyC1 ⟨[recDeleting], []⟩).2.trace
        = [Event.DeleteCluster "abc-123", Event.Update { recDeleting with Finalizers := [] }]
    ∧ Get (Reconcile envDeleteFails keyC1 ⟨[recDeleting], []⟩).2.store keyC1
        = some { recDeleting with Finalizers := [] } := by
  decide

/-- Claim C2, evaluated on an empty Record Store: the fetch of "c1" finds
nothing, yet Reconcile writes the zero-valued record with the finalizer
appended.  When that write is rejected it returns the error; when it is accepted
it goes on to call the remote create with ("c1", "", "", "", ""), get-by-name
and the worker spawn. -/
theorem Reconcile_absent_record_not_noop :
    Get [] keyC1 = none
    ∧ (Reconcile envRejectWrites keyC1 ⟨[], []⟩).1 = some "conflict"
    ∧ (Reconcile envRejectWrites keyC1 ⟨[], []⟩).2.trace
        = [Event.Update { zeroZeebeCluster with Finalizers := [myFinalizerName] }]
    ∧ (Reconcile envOk keyC1 ⟨[], []⟩).1 = none
    ∧ creates (Reconcile envOk keyC1 ⟨[], []⟩).2.trace = [("c1", "", "", "", "")]
    ∧ getByNames (Reconcile envOk keyC1 ⟨[], []⟩).2.trace = [""]
    ∧ spawns (Reconcile envOk keyC1 ⟨[], []⟩).2.trace = ["abc-123"]
    ∧ (updates (Reconcile envOk keyC1 ⟨[], []⟩).2.trace).length = 3 := by
  decide

/-- Claim C8, evaluated at a failing fetch: the worker of "abc-123" knows the
status `statusCreating` and get-by-id returns an error next to the zero status.
The tick still issues a status write, carrying the zero status, and the worker's
last-known status is replaced by it. -/
theorem workerTick_fetch_failure_writes :
    (envFetchFails.GetClusterDetails [] "abc-123").2 = some "network error"
    ∧ statusUpdates (workerTick envFetchFails "abc-123" (recTracked, ⟨[recTracked], []⟩)).2.trace
        = [{ recTracked with Status := zeroZeebeCluster.Status }]
    ∧ (workerTick envFetchFails "abc-123" (recTracked, ⟨[recTracked], []⟩)).1.Status
        = zeroZeebeCluster.Status
    ∧ recTracked.Status ≠ zeroZeebeCluster.Status
    ∧ Get (workerTick envFetchFails "abc-123" (recTracked, ⟨[recTracked], []⟩)).2.store keyC1
        = some { recTracked with Status := zeroZeebeCluster.Status } := by
  decide

/-- Counterexample to C5 as stated: the adopted record "c1" (cluster id set, no
finalizer, plan "p1") reconciled against a remote definition with plan "p2"
sees two Record Store writes in one pass, the finalizer attach and the drift
correction, not one. -/
theorem Reconcile_drift_two_writes :
    IsZero recAdopted.DeletionTimestamp = true
    ∧ recAdopted.Spec.ClusterId ≠ ""
    ∧ envOk.GetClusterByName [] recAdopted.Name = (remoteDef, none)
    ∧ recAdopted.Spec.PlanName ≠ remoteDef.ClusterPlantType.Name
    ∧ (updates (Reconcile envOk keyC1 ⟨[recAdopted], []⟩).2.trace).length = 2
    ∧ ¬ (updates (Reconcile envOk keyC1 ⟨[recAdopted], []⟩).2.trace).length = 1 := by
  decide

/-- Claim C5, amended: for a record that is not being deleted and has a non-empty
remoteClusterId, with Record Store writes accepted, when get-by-name succeeds
with a planName that differs from the local one: the record the store holds
afterwards has planName, generationName, channelName and region equal to the
remote values, keeps its remoteClusterId and carries the cleanup finalizer;
the field corrections go out in one single write, which is the only
write of the pass when the record already carries the cleanup finalizer and is
preceded by the finalizer-attach write when it does not. -/
theorem Reconcile_drift (env : Env) (req : NamespacedName) (w : World) (z : ZeebeCluster)
    (name : Cluster)
    (hget : Get w.store req = some z)
    (hlive : IsZero z.DeletionTimestamp = true)
    (hid : z.Spec.ClusterId ≠ "")
    (hwrite : ∀ h obj, env.Update h obj = none)
    (hremote : ∀ h, env.GetClusterByName h z.Name = (name, none))
    (hplan : z.Spec.PlanName ≠ name.ClusterPlantType.Name) :
    ∃ z', Get (Reconcile env req w).2.store req = some z'
      ∧ z'.Spec.PlanName = name.ClusterPlantType.Name
      ∧ z'.Spec.GenerationName = name.Generation.Name
      ∧ z'.Spec.ChannelName = name.Channel.Name
      ∧ z'.Spec.Region = name.ClusterPlantType.K8sContext.Name
      ∧ z'.Spec.ClusterId = z.Spec.ClusterId
      ∧ containsString z'.Finalizers myFinalizerName = true
      ∧ updates (Reconcile env req w).2.trace = updates w.trace ++
          (if containsString z.Finalizers myFinalizerName = true then [z']
           else [{ z with Finalizers := z.Finalizers ++ [myFinalizerName] }, z']) := by
  have hk := Get_key hget
  have hz : (Get w.store req).getD zeroZeebeCluster = z := by rw [hget]; rfl
  have hskip : ∀ f : List String, ¬ (({ z with Finalizers := f } : ZeebeCluster).Spec.ClusterId = ""
      ∧ ({ z with Finalizers := f } : ZeebeCluster).Spec.Owner ≠ "CC") := fun f h => hid h.1
  have hmod : ∀ f : List String, (driftSync ({ z with Finalizers := f } : ZeebeCluster) name).2 = true := by
    intro f
    rw [driftSync_snd]
    exact Or.inl hplan
  rw [Reconcile_live hz hlive]
  by_cases hf : containsString z.Finalizers myFinalizerName = true
  · rw [if_pos hf]
    have hs : ¬ (z.Spec.ClusterId = "" ∧ z.Spec.Owner ≠ "CC") := fun h => hid h.1
    rw [reconcileCreate_skip hs, reconcileTrack_id hid]
    simp only [hremote, hwrite]
    have hm := hmod z.Finalizers
    simp only at hm
    rw [if_pos hm]
    refine ⟨(driftSync z name).1, ?_, ?_⟩
    · simp only [spawnWorker]
      have hs := driftSync_sameIdentity z name
      exact Get_put hget (hs.2.1.symm.trans hk.1) (hs.1.symm.trans hk.2) hs.2.2.2.2.2.2.2.symm
    · rw [driftSync_fst]
      simp [updates, spawnWorker, hf]
  · rw [if_neg hf]
    simp only [hwrite]
    have hidf : ({ z with Finalizers := z.Finalizers ++ [myFinalizerName] } : ZeebeCluster).Spec.ClusterId ≠ "" := hid
    rw [reconcileCreate_skip (hskip _), reconcileTrack_id hidf]
    simp only [hremote, hwrite]
    have hm := hmod (z.Finalizers ++ [myFinalizerName])
    rw [if_pos hm]
    refine ⟨(driftSync { z with Finalizers := z.Finalizers ++ [myFinalizerName] } name).1, ?_, ?_⟩
    · simp only [spawnWorker]
      have hs := driftSync_sameIdentity { z with Finalizers := z.Finalizers ++ [myFinalizerName] } name
      have hput : Get (put w.store { z with Finalizers := z.Finalizers ++ [myFinalizerName] }) req
          = some { z with Finalizers := z.Finalizers ++ [myFinalizerName] } := Get_put hget hk.1 hk.2 rfl
      exact Get_put hput (hs.2.1.symm.trans hk.1) (hs.1.symm.trans hk.2) hs.2.2.2.2.2.2.2.symm
    · rw [driftSync_fst]
      simp [updates, spawnWorker, containsString_iff, hf]

/-- Witness for C5 (amended): the drifted record "c1", finalizer attached, is
corrected to the remote definition in a single write. -/
theorem Reconcile_drift_witness :
    ∃ z', Get (Reconcile envOk keyC1 ⟨[recDrifted], []⟩).2.store keyC1 = some z'
      ∧ z'.Spec.PlanName = "p2" ∧ z'.Spec.GenerationName = "g2"
      ∧ z'.Spec.ChannelName = "ch2" ∧ z'.Spec.Region = "r2"
      ∧ updates (Reconcile envOk keyC1 ⟨[recDrifted], []⟩).2.trace = [z'] := by
  obtain ⟨z', h1, h2, h3, h4, h5, _, _, h8⟩ :=
    Reconcile_drift envOk keyC1 ⟨[recDrifted], []⟩ recDrifted remoteDef (by decide) (by decide)
      (by decide) (fun _ _ => rfl) (fun _ => rfl) (by decide)
  refine ⟨z', h1, h2, h3, h4, h5, ?_⟩
  rw [h8]
  have hf : containsString recDrifted.Finalizers myFinalizerName = true := by decide
  rw [if_pos hf]
  rfl

/-- Counterexample to C7 as stated: two Reconcile invocations on the tracked
record "c1" start two status workers for the same cluster id "abc-123"; the
second invocation starts a worker although the first one, whose loop has no
exit, is still running. -/
theorem Reconcile_twice_two_workers :
    spawns (Reconcile envOk keyC1 ⟨[recTracked], []⟩).2.trace = ["abc-123"]
    ∧ spawns (reconcileN envOk keyC1 2 ⟨[recTracked], []⟩).trace = ["abc-123", "abc-123"]
    ∧ ¬ (spawns (reconcileN envOk keyC1 2 ⟨[recTracked], []⟩).trace).count "abc-123" ≤ 1 := by
  decide

/-- One invocation on a live record with a cluster id, with get-by-name and the
writes succeeding, starts exactly one worker and leaves a live record with the
same cluster id in the store. -/
theorem Reconcile_tracked_step {env : Env} {req : NamespacedName} {w : World} {z : ZeebeCluster}
    (hget : Get w.store req = some z)
    (hlive : IsZero z.DeletionTimestamp = true)
    (hid : z.Spec.ClusterId ≠ "")
    (hwrite : ∀ h obj, env.Update h obj = none)
    (hremote : ∀ h n, (env.GetClusterByName h n).2 = none) :
    (∃ z', Get (Reconcile env req w).2.store req = some z'
      ∧ z'.DeletionTimestamp = z.DeletionTimestamp ∧ z'.Spec.ClusterId = z.Spec.ClusterId)
    ∧ spawns (Reconcile env req w).2.trace = spawns w.trace ++ [z.Spec.ClusterId] := by
  have hk := Get_key hget
  have hz : (Get w.store req).getD zeroZeebeCluster = z := by rw [hget]; rfl
  -- the tracking part, for a record held by the store
  have track : ∀ (y : ZeebeCluster) (v : World), Get v.store req = some y → y.Spec.ClusterId ≠ "" →
      (∃ z', Get (reconcileTrack env y v).2.store req = some z'
        ∧ z'.DeletionTimestamp = y.DeletionTimestamp ∧ z'.Spec.ClusterId = y.Spec.ClusterId)
      ∧ spawns (reconcileTrack env y v).2.trace = spawns v.trace ++ [y.Spec.ClusterId] := by
    intro y v hy hyid
    constructor
    · obtain ⟨z', hz', hs⟩ := reconcileTrack_store env hy
      exact ⟨z', hz', hs.2.2.2.1.symm, hs.2.2.2.2.2.1.symm⟩
    · rw [reconcileTrack_id hyid]
      simp only [hremote, hwrite]
      have hcid := (driftSync_sameIdentity y (env.GetClusterByName v.trace y.Name).1).2.2.2.2.2.1
      split <;> simp [spawns, spawnWorker, ← hcid]
  rw [Reconcile_live hz hlive]
  by_cases hf : containsString z.Finalizers myFinalizerName = true
  · rw [if_pos hf]
    have hs : ¬ (z.Spec.ClusterId = "" ∧ z.Spec.Owner ≠ "CC") := fun h => hid h.1
    rw [reconcileCreate_skip hs]
    exact track z w hget hid
  · rw [if_neg hf]
    simp only [hwrite]
    have hidf : ({ z with Finalizers := z.Finalizers ++ [myFinalizerName] } : ZeebeCluster).Spec.ClusterId
        ≠ "" := hid
    have hs : ¬ (({ z with Finalizers := z.Finalizers ++ [myFinalizerName] } : ZeebeCluster).Spec.ClusterId = ""
        ∧ ({ z with Finalizers := z.Finalizers ++ [myFinalizerName] } : ZeebeCluster).Spec.Owner ≠ "CC") :=
      fun h => hid h.1
    rw [reconcileCreate_skip hs]
    have hput : Get (put w.store { z with Finalizers := z.Finalizers ++ [myFinalizerName] }) req
        = some { z with Finalizers := z.Finalizers ++ [myFinalizerName] } := Get_put hget hk.1 hk.2 rfl
    have ht := track { z with Finalizers := z.Finalizers ++ [myFinalizerName] }
      { store := put w.store { z with Finalizers := z.Finalizers ++ [myFinalizerName] },
        trace := w.trace ++ [Event.Update { z with Finalizers := z.Finalizers ++ [myFinalizerName] }] }
      hput hidf
    refine ⟨ht.1, ?_⟩
    rw [ht.2]
    simp [spawns]

/-- A run of such invocations starts one worker per invocation. -/
theorem reconcileN_spawns {env : Env} {req : NamespacedName}
    (hwrite : ∀ h obj, env.Update h obj = none)
    (hremote : ∀ h name, (env.GetClusterByName h name).2 = none)
    (n : Nat) (w : World) (z : ZeebeCluster)
    (hget : Get w.store req = some z)
    (hlive : IsZero z.DeletionTimestamp = true)
    (hid : z.Spec.ClusterId ≠ "") :
    spawns (reconcileN env req n w).trace = spawns w.trace ++ List.replicate n z.Spec.ClusterId := by
  induction n generalizing w z with
  | zero => simp [reconcileN]
  | succ k ih =>
    obtain ⟨⟨z', hz', hd, hc⟩, hsp⟩ := Reconcile_tracked_step hget hlive hid hwrite hremote
    have := ih (Reconcile env req w).2 z' hz' (by rw [hd]; exact hlive) (by rw [hc]; exact hid)
    rw [reconcileN, this, hsp, hc, List.replicate_succ]
    simp

/-- Every tick of a worker makes one remote status fetch for its cluster id,
whatever the worker knows and whatever the collaborators answer. -/
theorem workerTick_fetches (env : Env) (clusterId : String) (p : ZeebeCluster × World) :
    fetches (workerTick env clusterId p).2.trace = fetches p.2.trace ++ [clusterId] := by
  unfold workerTick
  dsimp only
  split
  · unfold StatusUpdate
    split <;> simp [fetches]
  · simp [fetches]

/-- A worker is still polling after any number of ticks: its loop has no exit,
so a run of `ticks` ticks makes `ticks` fetches. -/
theorem workerPoll_fetches (env : Env) (clusterId : String) (ticks : Nat)
    (p : ZeebeCluster × World) :
    fetches (workerPollCCClusterDetails env clusterId ticks p).2.trace
      = fetches p.2.trace ++ List.replicate ticks clusterId := by
  induction ticks generalizing p with
  | zero => simp [workerPollCCClusterDetails]
  | succ k ih =>
    rw [workerPollCCClusterDetails, ih, workerTick_fetches, List.replicate_succ]
    simp

/-- Claim C7, amended: nothing records which workers are running, so every
Reconcile invocation on a record that is not being deleted and has a non-empty
cluster id, whose get-by-name call and writes succeed, starts one new status
worker for that id whether or not one is already running; after n such
invocations on the key, n workers have been started for the id.  The worker loop
has no exit: a worker for the id, started with any copy of the record in any
state of the world, makes one status fetch for the id on every tick, for any
number of ticks, so all the workers started remain active. -/
theorem Reconcile_spawns_every_time (env : Env) (req : NamespacedName) (n : Nat) (w : World)
    (z : ZeebeCluster)
    (hget : Get w.store req = some z)
    (hlive : IsZero z.DeletionTimestamp = true)
    (hid : z.Spec.ClusterId ≠ "")
    (hwrite : ∀ h obj, env.Update h obj = none)
    (hremote : ∀ h name, (env.GetClusterByName h name).2 = none) :
    spawns (reconcileN env req n w).trace = spawns w.trace ++ List.replicate n z.Spec.ClusterId
    ∧ ∀ (ticks : Nat) (copy : ZeebeCluster) (v : World),
        fetches (workerPollCCClusterDetails env z.Spec.ClusterId ticks (copy, v)).2.trace
          = fetches v.trace ++ List.replicate ticks z.Spec.ClusterId :=
  ⟨reconcileN_spawns hwrite hremote n w z hget hlive hid,
    fun ticks copy v => workerPoll_fetches env z.Spec.ClusterId ticks (copy, v)⟩

/-- Witness for C7 (amended): three invocations on the tracked record "c1" start
three workers for "abc-123", and a worker for "abc-123" started with the record
makes five fetches in five ticks. -/
theorem Reconcile_spawns_every_time_witness :
    spawns (reconcileN envOk keyC1 3 ⟨[recTracked], []⟩).trace
      = spawns [] ++ List.replicate 3 recTracked.Spec.ClusterId
    ∧ fetches (workerPollCCClusterDetails envOk recTracked.Spec.ClusterId 5
          (recTracked, ⟨[recTracked], []⟩)).2.trace
        = fetches [] ++ List.replicate 5 recTracked.Spec.ClusterId :=
  have h := Reconcile_spawns_every_time envOk keyC1 3 ⟨[recTracked], []⟩ recTracked (by decide)
    (by decide) (by decide) (fun _ _ => rfl) (fun _ _ => rfl)
  ⟨h.1, h.2 5 recTracked ⟨[recTracked], []⟩⟩

/-- Counterexample to C6 as stated: the Record Store rejects the write that
follows the remote create (create itself succeeds).  After two redundant
invocations on the fresh record "c1" two remote create calls have been made and
the stored remoteClusterId is still empty. -/
theorem Reconcile_create_repeated :
    recNew.Spec.ClusterId = "" ∧ recNew.Spec.Owner ≠ "CC"
    ∧ creates (reconcileN envConflict keyC1 2 ⟨[recNew], []⟩).trace
        = [("c1", "p1", "", "", ""), ("c1", "p1", "", "", "")]
    ∧ (Get (reconcileN envConflict keyC1 2 ⟨[recNew], []⟩).store keyC1).map (fun r => r.Spec.ClusterId)
        = some ""
    ∧ ¬ (creates (reconcileN envConflict keyC1 2 ⟨[recNew], []⟩).trace).length = 1 := by
  decide

/-- The creation part on a record held by the store, owner not "CC", when create
succeeds with a non-empty id and the write that follows it is accepted. -/
theorem reconcileCreate_step {env : Env} {req : NamespacedName} {z : ZeebeCluster} {w : World}
    (hget : Get w.store req = some z) (howner : z.Spec.Owner ≠ "CC")
    (hcreate : ∀ h a b c d e, (env.CreateClusterWithParams h a b c d e).2 = none
      ∧ (env.CreateClusterWithParams h a b c d e).1 ≠ "")
    (hpersist : ∀ h a b c d e obj, env.Update (h ++ [Event.CreateClusterWithParams a b c d e]) obj = none) :
    ∃ z', Get (reconcileCreate env req z w).2.store req = some z'
      ∧ z'.DeletionTimestamp = z.DeletionTimestamp ∧ z'.Spec.Owner = z.Spec.Owner
      ∧ (z.Spec.ClusterId ≠ "" → z'.Spec.ClusterId ≠ ""
          ∧ creates (reconcileCreate env req z w).2.trace = creates w.trace)
      ∧ (z.Spec.ClusterId = "" → z'.Spec.ClusterId ≠ ""
          ∧ (creates (reconcileCreate env req z w).2.trace).length = (creates w.trace).length + 1) := by
  have hk := Get_key hget
  by_cases hid : z.Spec.ClusterId = ""
  · rw [reconcileCreate_call ⟨hid, howner⟩]
    simp only [(hcreate _ _ _ _ _ _).1, hpersist]
    have hput : Get (put w.store { z with Spec := { z.Spec with ClusterId :=
        (env.CreateClusterWithParams w.trace req.Name z.Spec.PlanName z.Spec.ChannelName
          z.Spec.GenerationName z.Spec.Region).1 } }) req
        = some { z with Spec := { z.Spec with ClusterId :=
        (env.CreateClusterWithParams w.trace req.Name z.Spec.PlanName z.Spec.ChannelName
          z.Spec.GenerationName z.Spec.Region).1 } } := Get_put hget hk.1 hk.2 rfl
    obtain ⟨z', hz', hs⟩ := reconcileTrack_store env
      (w := { store := put w.store { z with Spec := { z.Spec with ClusterId :=
                (env.CreateClusterWithParams w.trace req.Name z.Spec.PlanName z.Spec.ChannelName
                  z.Spec.GenerationName z.Spec.Region).1 } },
              trace := w.trace ++ [Event.CreateClusterWithParams req.Name z.Spec.PlanName
                z.Spec.ChannelName z.Spec.GenerationName z.Spec.Region]
                ++ [Event.Update { z with Spec := { z.Spec with ClusterId :=
                (env.CreateClusterWithParams w.trace req.Name z.Spec.PlanName z.Spec.ChannelName
                  z.Spec.GenerationName z.Spec.Region).1 } }] }) hput
    refine ⟨z', hz', hs.2.2.2.1.symm, hs.2.2.2.2.1.symm, fun h => absurd hid h, fun _ => ⟨?_, ?_⟩⟩
    · rw [← hs.2.2.2.2.2.1]
      exact (hcreate _ _ _ _ _ _).2
    · rw [reconcileTrack_creates]
      simp [creates]
  · have hs : ¬ (z.Spec.ClusterId = "" ∧ z.Spec.Owner ≠ "CC") := fun h => hid h.1
    rw [reconcileCreate_skip hs]
    obtain ⟨z', hz', hs⟩ := reconcileTrack_store env hget
    refine ⟨z', hz', hs.2.2.2.1.symm, hs.2.2.2.2.1.symm, fun _ => ⟨?_, reconcileTrack_creates env z w⟩,
      fun h => absurd h hid⟩
    rw [← hs.2.2.2.2.2.1]
    exact hid

/-- One Reconcile invocation on a live record, owner not "CC": a create call is
made only while the stored id is empty, and then the id is stored. -/
theorem Reconcile_create_step {env : Env} {req : NamespacedName} {z : ZeebeCluster} {w : World}
    (hget : Get w.store req = some z) (hlive : IsZero z.DeletionTimestamp = true)
    (howner : z.Spec.Owner ≠ "CC")
    (hcreate : ∀ h a b c d e, (env.CreateClusterWithParams h a b c d e).2 = none
      ∧ (env.CreateClusterWithParams h a b c d e).1 ≠ "")
    (hpersist : ∀ h a b c d e obj, env.Update (h ++ [Event.CreateClusterWithParams a b c d e]) obj = none) :
    ∃ z', Get (Reconcile env req w).2.store req = some z'
      ∧ z'.DeletionTimestamp = z.DeletionTimestamp ∧ z'.Spec.Owner = z.Spec.Owner
      ∧ (z.Spec.ClusterId ≠ "" → z'.Spec.ClusterId ≠ ""
          ∧ creates (Reconcile env req w).2.trace = creates w.trace)
      ∧ (z.Spec.ClusterId = "" →
          (creates (Reconcile env req w).2.trace).length
            = (creates w.trace).length + (if z'.Spec.ClusterId = "" then 0 else 1)) := by
  have hk := Get_key hget
  have hz : (Get w.store req).getD zeroZeebeCluster = z := by rw [hget]; rfl
  rw [Reconcile_live hz hlive]
  by_cases hf : containsString z.Finalizers myFinalizerName = true
  · rw [if_pos hf]
    obtain ⟨z', hz', hd, ho, h1, h2⟩ := reconcileCreate_step hget howner hcreate hpersist
    refine ⟨z', hz', hd, ho, h1, fun h => ?_⟩
    rw [(h2 h).2, if_neg (h2 h).1]
  · rw [if_neg hf]
    simp only
    cases hu : env.Update w.trace { z with Finalizers := z.Finalizers ++ [myFinalizerName] } with
    | some e =>
      refine ⟨z, hget, rfl, rfl, fun h => ⟨h, by simp [creates]⟩, fun h => ?_⟩
      simp [creates, h]
    | none =>
      simp only
      have hput : Get (put w.store { z with Finalizers := z.Finalizers ++ [myFinalizerName] }) req
          = some { z with Finalizers := z.Finalizers ++ [myFinalizerName] } := Get_put hget hk.1 hk.2 rfl
      obtain ⟨z', hz', hd, ho, h1, h2⟩ := reconcileCreate_step
        (w := { store := put w.store { z with Finalizers := z.Finalizers ++ [myFinalizerName] },
                trace := w.trace ++ [Event.Update { z with Finalizers := z.Finalizers ++ [myFinalizerName] }] })
        hput howner hcreate hpersist
      refine ⟨z', hz', hd, ho, fun h => ⟨(h1 h).1, ?_⟩, fun h => ?_⟩
      · rw [(h1 h).2]
        simp [creates]
      · rw [(h2 h).2, if_neg (h2 h).1]
        simp [creates]

/-- A run of Reconcile invocations on a live record, owner not "CC": the create
calls of the run, counted against the id the store holds at its end. -/
theorem reconcileN_create_count {env : Env} {req : NamespacedName}
    (hcreate : ∀ h a b c d e, (env.CreateClusterWithParams h a b c d e).2 = none
      ∧ (env.CreateClusterWithParams h a b c d e).1 ≠ "")
    (hpersist : ∀ h a b c d e obj, env.Update (h ++ [Event.CreateClusterWithParams a b c d e]) obj = none)
    (n : Nat) (w : World) (z : ZeebeCluster)
    (hget : Get w.store req = some z) (hlive : IsZero z.DeletionTimestamp = true)
    (howner : z.Spec.Owner ≠ "CC") :
    ∃ z', Get (reconcileN env req n w).store req = some z'
      ∧ z'.DeletionTimestamp = z.DeletionTimestamp ∧ z'.Spec.Owner = z.Spec.Owner
      ∧ (z.Spec.ClusterId ≠ "" → z'.Spec.ClusterId ≠ ""
          ∧ creates (reconcileN env req n w).trace = creates w.trace)
      ∧ (z.Spec.ClusterId = "" →
          (creates (reconcileN env req n w).trace).length
            = (creates w.trace).length + (if z'.Spec.ClusterId = "" then 0 else 1)) := by
  induction n generalizing w z with
  | zero =>
    refine ⟨z, hget, rfl, rfl, fun h => ⟨h, rfl⟩, fun h => ?_⟩
    simp [reconcileN, h]
  | succ k ih =>
    obtain ⟨z1, hz1, hd1, ho1, h1, h2⟩ := Reconcile_create_step hget hlive howner hcreate hpersist
    obtain ⟨z', hz', hd, ho, h3, h4⟩ := ih (Reconcile env req w).2 z1 hz1 (by rw [hd1]; exact hlive)
      (by rw [ho1]; exact howner)
    rw [reconcileN]
    refine ⟨z', hz', hd.trans hd1, ho.trans ho1, fun h => ?_, fun h => ?_⟩
    · exact ⟨(h3 (h1 h).1).1, (h3 (h1 h).1).2.trans (h1 h).2⟩
    · by_cases he : z1.Spec.ClusterId = ""
      · rw [h4 he, h2 h, if_pos he]
        simp
      · rw [(h3 he).2, h2 h, if_neg he, if_neg (h3 he).1]

/-- Claim C6, amended: for a record that is not being deleted, with empty
remoteClusterId and non-sentinel owner, and every finite run of redundant
Reconcile invocations on its key (each reading the record as the store holds it
after the previous one), with remote create calls succeeding with a non-empty
id, the Record Store write that directly follows a create call accepted and
every other write either accepted or rejected: the number of remote create calls
of the run is one if the store holds a non-empty remoteClusterId at its end and
zero if it is still empty, and once it is non-empty no further invocation makes
a create call. -/
theorem Reconcile_create_idempotent (env : Env) (req : NamespacedName) (n : Nat) (w : World)
    (z : ZeebeCluster)
    (hget : Get w.store req = some z)
    (hlive : IsZero z.DeletionTimestamp = true)
    (hempty : z.Spec.ClusterId = "")
    (howner : z.Spec.Owner ≠ "CC")
    (hcreate : ∀ h a b c d e, (env.CreateClusterWithParams h a b c d e).2 = none
      ∧ (env.CreateClusterWithParams h a b c d e).1 ≠ "")
    (hpersist : ∀ h a b c d e obj, env.Update (h ++ [Event.CreateClusterWithParams a b c d e]) obj = none) :
    ∃ z', Get (reconcileN env req n w).store req = some z'
      ∧ (creates (reconcileN env req n w).trace).length
          = (creates w.trace).length + (if z'.Spec.ClusterId = "" then 0 else 1)
      ∧ (z'.Spec.ClusterId ≠ "" → ∀ m,
          creates (reconcileN env req m (reconcileN env req n w)).trace
            = creates (reconcileN env req n w).trace) := by
  obtain ⟨z', hz', hd, ho, _, h2⟩ := reconcileN_create_count hcreate hpersist n w z hget hlive howner
  refine ⟨z', hz', h2 hempty, fun hne m => ?_⟩
  obtain ⟨_, _, _, _, h3, _⟩ := reconcileN_create_count hcreate hpersist m (reconcileN env req n w) z' hz'
    (by rw [hd]; exact hlive) (by rw [ho]; exact howner)
  exact (h3 hne).2

/-- Witness for C6 (amended): the Record Store rejects the finalizer-attach
write of the first invocation and accepts every later write; three invocations
on the fresh record "c1" make one create call. -/
theorem Reconcile_create_idempotent_witness :
    ∃ z', Get (reconcileN envFirstWriteRejected keyC1 3 ⟨[recNew], []⟩).store keyC1 = some z'
      ∧ (creates (reconcileN envFirstWriteRejected keyC1 3 ⟨[recNew], []⟩).trace).length
          = (creates []).length + (if z'.Spec.ClusterId = "" then 0 else 1)
      ∧ (z'.Spec.ClusterId ≠ "" → ∀ m,
          creates (reconcileN envFirstWriteRejected keyC1 m
              (reconcileN envFirstWriteRejected keyC1 3 ⟨[recNew], []⟩)).trace
            = creates (reconcileN envFirstWriteRejected keyC1 3 ⟨[recNew], []⟩).trace) :=
  Reconcile_create_idempotent envFirstWriteRejected keyC1 3 ⟨[recNew], []⟩ recNew (by decide)
    (by decide) (by decide) (by decide)
    (fun _ _ _ _ _ _ => ⟨rfl, by show ("abc-123" : String) ≠ ""; decide⟩)
    (fun h a b c d e _ => by simp [envFirstWriteRejected])

theorem Get_putStatus {store : List ZeebeCluster} {key : NamespacedName} {r obj : ZeebeCluster}
    (h : Get store key = some r) (hns : obj.Namespace = key.Namespace) (hn : obj.Name = key.Name) :
    Get (putStatus store obj) key = some { r with Status := obj.Status } := by
  induction store with
  | nil => simp [Get] at h
  | cons a rest ih =>
    by_cases ha : a.Namespace = key.Namespace ∧ a.Name = key.Name
    · have hr : a = r := by simpa [Get, List.find?_cons, ha] using h
      subst hr
      simp [Get, putStatus, sameKey, List.find?_cons, ha, hns, hn]
    · have hrest : Get rest key = some r := by
        simpa [Get, List.find?_cons, ha] using h
      have ih2 := ih hrest
      have hk : sameKey a obj = false := by
        rw [Bool.eq_false_iff]
        intro hs
        apply ha
        simp only [sameKey, Bool.and_eq_true, beq_iff_eq] at hs
        exact ⟨hs.1.trans hns, hs.2.trans hn⟩
      have hka : (a.Namespace == key.Namespace && a.Name == key.Name) = false := by
        rw [Bool.eq_false_iff]
        intro hs
        apply ha
        simpa using hs
      unfold Get putStatus at ih2 ⊢
      rw [List.map_cons, List.find?_cons]
      simp only [hk, Bool.false_eq_true, if_false, hka]
      exact ih2

theorem StatusUpdate_trace (env : Env) (obj : ZeebeCluster) (w : World) :
    (StatusUpdate env obj w).2.trace = w.trace ++ [Event.StatusUpdate obj] := by
  unfold StatusUpdate
  cases env.StatusUpdate w.trace obj <;> rfl

theorem StatusUpdate_store_ok {env : Env} {obj : ZeebeCluster} {w : World}
    (h : env.StatusUpdate w.trace obj = none) :
    (StatusUpdate env obj w).2.store = putStatus w.store obj := by
  unfold StatusUpdate
  rw [h]

/-- One tick of the worker in closed form. -/
theorem workerTick_eq (env : Env) (clusterId : String) (z : ZeebeCluster) (w : World) :
    workerTick env clusterId (z, w) =
      if z.Status.ClusterStatus ≠ (env.GetClusterDetails w.trace clusterId).1 then
        ({ z with Status := { ClusterStatus := (env.GetClusterDetails w.trace clusterId).1 } },
          (StatusUpdate env
            { z with Status := { ClusterStatus := (env.GetClusterDetails w.trace clusterId).1 } }
            { w with trace := w.trace ++ [Event.GetClusterDetails clusterId] }).2)
      else (z, { w with trace := w.trace ++ [Event.GetClusterDetails clusterId] }) := by
  unfold workerTick
  dsimp only

/-- Ticks compose on the right: one more tick after a run. -/
theorem workerPoll_succ (env : Env) (clusterId : String) (n : Nat) (p : ZeebeCluster × World) :
    workerPollCCClusterDetails env clusterId (n + 1) p
      = workerTick env clusterId (workerPollCCClusterDetails env clusterId n p) := by
  induction n generalizing p with
  | zero => rfl
  | succ k ih =>
    rw [workerPollCCClusterDetails, ih]
    rfl

/-- A run of ticks whose fetches all return the known status changes nothing but
the log of fetches. -/
theorem workerPoll_idle (env : Env) (clusterId : String) (n : Nat) (z : ZeebeCluster) (w : World)
    (hsame : ∀ h, (fetches h).length < (fetches w.trace).length + n →
      env.GetClusterDetails h clusterId = (z.Status.ClusterStatus, none)) :
    (workerPollCCClusterDetails env clusterId n (z, w)).1 = z
    ∧ (workerPollCCClusterDetails env clusterId n (z, w)).2.store = w.store
    ∧ statusUpdates (workerPollCCClusterDetails env clusterId n (z, w)).2.trace = statusUpdates w.trace
    ∧ (fetches (workerPollCCClusterDetails env clusterId n (z, w)).2.trace).length
        = (fetches w.trace).length + n := by
  induction n generalizing w with
  | zero => simp [workerPollCCClusterDetails]
  | succ k ih =>
    have h0 : env.GetClusterDetails w.trace clusterId = (z.Status.ClusterStatus, none) :=
      hsame w.trace (by omega)
    have ht : workerTick env clusterId (z, w)
        = (z, { w with trace := w.trace ++ [Event.GetClusterDetails clusterId] }) := by
      rw [workerTick_eq, h0]
      simp
    rw [workerPollCCClusterDetails, ht]
    have := ih { w with trace := w.trace ++ [Event.GetClusterDetails clusterId] } (by
      intro h hlt
      apply hsame
      simp [fetches] at hlt ⊢
      omega)
    obtain ⟨h1, h2, h3, h4⟩ := this
    refine ⟨h1, h2, ?_, ?_⟩
    · rw [h3]; simp [statusUpdates]
    · rw [h4]; simp [fetches]; omega

/-- Counterexample to C9 as stated: status writes are rejected.  The first tick
fetches `statusHealthy`, differing from the known `statusCreating`, and its write
is rejected, so the status last persisted stays `statusCreating`.  The second
tick fetches `statusHealthy` again, which still differs from the status last
persisted, yet it issues no write. -/
theorem workerTick_no_retry_after_rejected_write :
    (Get (workerTick envStatusRejected "abc-123" (recTracked, ⟨[recTracked], []⟩)).2.store keyC1).map
        (fun r => r.Status.ClusterStatus) = some statusCreating
    ∧ envStatusRejected.GetClusterDetails
        (workerTick envStatusRejected "abc-123" (recTracked, ⟨[recTracked], []⟩)).2.trace "abc-123"
        = (statusHealthy, none)
    ∧ statusHealthy ≠ statusCreating
    ∧ statusUpdates (workerTick envStatusRejected "abc-123"
          (workerTick envStatusRejected "abc-123" (recTracked, ⟨[recTracked], []⟩))).2.trace
        = statusUpdates (workerTick envStatusRejected "abc-123" (recTracked, ⟨[recTracked], []⟩)).2.trace := by
  decide

/-- Claim C9, amended: in every worker state, a tick whose fetch succeeds issues
a status write if and only if the fetched status differs structurally from the
worker's own last-known status, the status of its copy of the record; the write
carries the fetched status, and after the tick the last-known status is the
fetched one whether the write was accepted or rejected; when the write is
accepted the stored record carries the fetched status.  In particular a run of n
fetches identical to the known status followed by one differing fetch yields
exactly one write. -/
theorem worker_writes_on_change (env : Env) (clusterId : String) :
    (∀ (z : ZeebeCluster) (w : World), (env.GetClusterDetails w.trace clusterId).2 = none →
      statusUpdates (workerTick env clusterId (z, w)).2.trace = statusUpdates w.trace ++
        (if z.Status.ClusterStatus ≠ (env.GetClusterDetails w.trace clusterId).1 then
          [{ z with Status := { ClusterStatus := (env.GetClusterDetails w.trace clusterId).1 } }]
         else [])
      ∧ (workerTick env clusterId (z, w)).1.Status.ClusterStatus
          = (env.GetClusterDetails w.trace clusterId).1
      ∧ (z.Status.ClusterStatus ≠ (env.GetClusterDetails w.trace clusterId).1 →
          env.StatusUpdate (w.trace ++ [Event.GetClusterDetails clusterId])
            { z with Status := { ClusterStatus := (env.GetClusterDetails w.trace clusterId).1 } } = none →
          ∀ r, Get w.store ⟨z.Namespace, z.Name⟩ = some r →
            Get (workerTick env clusterId (z, w)).2.store ⟨z.Namespace, z.Name⟩
              = some { r with Status := { ClusterStatus := (env.GetClusterDetails w.trace clusterId).1 } }))
    ∧ (∀ (n : Nat) (z : ZeebeCluster) (w : World) (resp : ClusterStatus),
        (∀ h, (fetches h).length < (fetches w.trace).length + n →
          env.GetClusterDetails h clusterId = (z.Status.ClusterStatus, none)) →
        (∀ h, (fetches h).length = (fetches w.trace).length + n →
          env.GetClusterDetails h clusterId = (resp, none)) →
        resp ≠ z.Status.ClusterStatus →
        statusUpdates (workerPollCCClusterDetails env clusterId (n + 1) (z, w)).2.trace
          = statusUpdates w.trace ++ [{ z with Status := { ClusterStatus := resp } }]) := by
  constructor
  · intro z w _
    rw [workerTick_eq]
    by_cases hne : z.Status.ClusterStatus = (env.GetClusterDetails w.trace clusterId).1
    · simp only [ne_eq, hne, not_true_eq_false, if_false, List.append_nil]
      refine ⟨by simp [statusUpdates], trivial, fun h => h.elim⟩
    · simp only [ne_eq, hne, not_false_eq_true, if_true]
      refine ⟨?_, trivial, fun _ hacc r hr => ?_⟩
      · rw [StatusUpdate_trace]
        simp [statusUpdates]
      · rw [StatusUpdate_store_ok hacc]
        exact Get_putStatus hr rfl rfl
  · intro n z w resp hsame hdiff hne
    obtain ⟨h1, h2, h3, h4⟩ := workerPoll_idle env clusterId n z w hsame
    rw [workerPoll_succ]
    rcases hp : workerPollCCClusterDetails env clusterId n (z, w) with ⟨z1, w1⟩
    rw [hp] at h1 h2 h3 h4
    simp only at h1 h2 h3 h4
    subst h1
    have hf := hdiff w1.trace h4
    have hne2 : z1.Status.ClusterStatus ≠ resp := fun h => hne h.symm
    rw [workerTick_eq, hf]
    dsimp only
    rw [if_pos hne2, StatusUpdate_trace]
    simp only [statusUpdates_append, h3]
    simp [statusUpdates]

/-- Witness for C9 (amended): the worker of "abc-123" knows `statusCreating`; two
fetches return it again and the third returns `statusHealthy`; the three ticks
issue exactly one write. -/
theorem worker_writes_on_change_witness :
    statusUpdates (workerPollCCClusterDetails envSettles "abc-123" (2 + 1)
        (recTracked, ⟨[recTracked], []⟩)).2.trace
      = statusUpdates [] ++ [{ recTracked with Status := { ClusterStatus := statusHealthy } }]
    ∧ (workerTick envSettles "abc-123" (recTracked, ⟨[recTracked], []⟩)).1.Status.ClusterStatus
        = (envSettles.GetClusterDetails [] "abc-123").1 :=
  have h := worker_writes_on_change envSettles "abc-123"
  ⟨h.2 2 recTracked ⟨[recTracked], []⟩ statusHealthy
      (fun h hlt => by
        have hlt2 : (fetches h).length < 2 := by simpa [fetches] using hlt
        simp [envSettles, hlt2, recTracked])
      (fun h heq => by
        have heq2 : (fetches h).length = 2 := by simpa [fetches] using heq
        simp [envSettles, heq2])
      (by decide),
   (h.1 recTracked ⟨[recTracked], []⟩ rfl).2.1⟩

end ZeebeOperator
